import Mathlib

/-!
Verification of the Shopify ingestion/reconciliation core of this repository
against its natural-language specification.

The embedding below is a shallow model of `src/src/app/api/sync/route.ts`
(the sync trigger endpoint `POST` and the worker `syncHistoricalData`),
together with the sync variants kept in `src/src/app/dashboard/page.tsx`
(the retry wrapper `withRetry` and the paginated fetch helper
`fetchAllFromShopify`).  The Prisma store is modelled as explicit lists of
rows with a composite `(shopifyId, storeId)` natural key; JavaScript
exceptions are modelled with `Except`; `try`/`catch` blocks of the source
are mirrored by explicit matches on the `Except` value.
-/

deriving instance DecidableEq for Except

namespace XenoSync

/-! ## Data model

Rows mirror the Prisma schema quoted in `src/README.md` (`Store`,
`Customer`, `Order`), restricted to the fields the sync path reads or
writes.  The local `cuid()` identifiers are modelled as naturals handed
out by a counter in `DB.nextId`. -/

structure StoreRow where
  id : String
  userId : String
  shop : String
  accessToken : String
deriving DecidableEq, Repr

structure CustomerRow where
  id : Nat
  shopifyId : String
  email : Option String
  firstName : Option String
  lastName : Option String
  storeId : String
deriving DecidableEq, Repr

/-- A monetary amount as JavaScript `parseFloat` produces it from the raw
decimal string, modelled exactly as a signed mantissa together with the
number of fraction digits (`"10.50"` is `(1050, 2)`). -/
abbrev Money := Int × Nat

structure OrderRow where
  id : Nat
  shopifyId : String
  orderNumber : String
  totalPrice : Money
  currency : String
  financialStatus : Option String
  fulfillmentStatus : Option String
  processedAt : Option String
  storeId : String
  customerId : Option Nat
deriving DecidableEq, Repr

/-- Raw Shopify customer payload fields used by the sync. -/
structure RawCustomer where
  id : Nat
  email : Option String
  first_name : Option String
  last_name : Option String
deriving DecidableEq, Repr

structure RawOrderCustomer where
  id : Nat
deriving DecidableEq, Repr

/-- Raw Shopify order payload fields used by the sync. -/
structure RawOrder where
  id : Nat
  name : String
  total_price : String
  currency : String
  financial_status : Option String
  fulfillment_status : Option String
  processed_at : Option String
  customer : Option RawOrderCustomer
deriving DecidableEq, Repr

/-- The tenant-shared relational store (Prisma `customer` / `order`
tables) with the local-id counter. -/
structure DB where
  customers : List CustomerRow
  orders : List OrderRow
  nextId : Nat
deriving DecidableEq, Repr

def digitsToNat (cs : List Char) : Nat :=
  cs.foldl (fun a c => a * 10 + (c.toNat - 48)) 0

def parseFloatAux (cs : List Char) : Nat × Nat :=
  let ip := cs.takeWhile Char.isDigit
  let rest := cs.drop ip.length
  let fp := match rest with
    | '.' :: t => t.takeWhile Char.isDigit
    | _ => []
  (digitsToNat (ip ++ fp), fp.length)

/-- JavaScript `parseFloat` on the decimal price strings Shopify sends,
modelled as an exact decimal (mantissa, scale); a string with no leading
digits is sent to `(0, 0)`. -/
def parseFloat (s : String) : Money :=
  match s.toList with
  | '-' :: t => let p := parseFloatAux t; (-(p.1 : Int), p.2)
  | t => let p := parseFloatAux t; ((p.1 : Int), p.2)

/-! ## Upsert semantics (src/src/app/api/sync/route.ts, lines 23-42 and 62-96)

`prisma.<table>.upsert({ where: { shopifyId_storeId: ... }, update, create })`
finds the unique row matching the composite key and applies `update` to it,
or inserts `create` when no row matches. -/

/-- The `shopifyId_storeId` composite-unique selector. -/
def custMatch (sid stid : String) (r : CustomerRow) : Bool :=
  r.shopifyId == sid && r.storeId == stid

def orderMatch (sid stid : String) (r : OrderRow) : Bool :=
  r.shopifyId == sid && r.storeId == stid

/-- The `update` clause of the customer upsert (route.ts lines 30-34). -/
def updCust (c : RawCustomer) (r : CustomerRow) : CustomerRow :=
  { r with email := c.email, firstName := c.first_name, lastName := c.last_name }

/-- The `create` clause of the customer upsert (route.ts lines 35-41). -/
def newCust (n : Nat) (sid stid : String) (c : RawCustomer) : CustomerRow :=
  ⟨n, sid, c.email, c.first_name, c.last_name, stid⟩

/-- `prisma.customer.findUnique({ where: { shopifyId_storeId } })`. -/
def findUniqueCustomer (db : DB) (sid stid : String) : Option CustomerRow :=
  db.customers.find? (custMatch sid stid)

def customerUpsert (db : DB) (storeId : String) (c : RawCustomer) : DB :=
  let sid := toString c.id
  match findUniqueCustomer db sid storeId with
  | some _ =>
    { db with customers :=
        db.customers.map (fun r => if custMatch sid storeId r then updCust c r else r) }
  | none =>
    { db with customers := db.customers ++ [newCust db.nextId sid storeId c],
              nextId := db.nextId + 1 }

/-- The `update` clause of the order upsert (route.ts lines 80-84): only
the financial status, the fulfillment status and the total price are
written. -/
def updOrder (o : RawOrder) (r : OrderRow) : OrderRow :=
  { r with financialStatus := o.financial_status,
           fulfillmentStatus := o.fulfillment_status,
           totalPrice := parseFloat o.total_price }

/-- The `create` clause of the order upsert (route.ts lines 85-95);
`cust` is the result of the customer lookup done just before. -/
def newOrder (n : Nat) (sid stid : String) (o : RawOrder)
    (cust : Option CustomerRow) : OrderRow :=
  ⟨n, sid, o.name, parseFloat o.total_price, o.currency, o.financial_status,
    o.fulfillment_status, o.processed_at, stid, cust.map (fun c => c.id)⟩

def findUniqueOrder (db : DB) (sid stid : String) : Option OrderRow :=
  db.orders.find? (orderMatch sid stid)

/-- The customer lookup of the order loop (route.ts lines 62-71): when the
raw order embeds a customer, look it up by `(customer.id, storeId)`. -/
def lookupOrderCustomer (db : DB) (storeId : String) (o : RawOrder) :
    Option CustomerRow :=
  match o.customer with
  | some oc => findUniqueCustomer db (toString oc.id) storeId
  | none => none

def orderUpsert (db : DB) (storeId : String) (o : RawOrder) : DB :=
  let customer := lookupOrderCustomer db storeId o
  let sid := toString o.id
  match findUniqueOrder db sid storeId with
  | some _ =>
    { db with orders :=
        db.orders.map (fun r => if orderMatch sid storeId r then updOrder o r else r) }
  | none =>
    { db with orders := db.orders ++ [newOrder db.nextId sid storeId o customer],
              nextId := db.nextId + 1 }

/-- The rows currently stored under one `(shopifyId, storeId)` key. -/
def custRowsFor (db : DB) (sid stid : String) : List CustomerRow :=
  db.customers.filter (custMatch sid stid)

def orderRowsFor (db : DB) (sid stid : String) : List OrderRow :=
  db.orders.filter (orderMatch sid stid)

/-- The composite-unique constraint of the schema: the customer keys are
pairwise distinct. -/
def custKeysNodup (db : DB) : Prop :=
  (db.customers.map (fun r => (r.shopifyId, r.storeId))).Nodup

def orderKeysNodup (db : DB) : Prop :=
  (db.orders.map (fun r => (r.shopifyId, r.storeId))).Nodup

instance (db : DB) : Decidable (custKeysNodup db) := by
  unfold custKeysNodup; infer_instance

instance (db : DB) : Decidable (custKeysNodup db) := by
  unfold custKeysNodup; infer_instance

instance (db : DB) : Decidable (orderKeysNodup db) := by
  unfold orderKeysNodup; infer_instance

/-! ## The per-item loops (route.ts lines 21-46 and 60-100)

Both loops run every item through a `try { ... } catch { log }` body: a
throwing store call is caught, its message logged, and the loop moves to
the next item.  The loop is parametric in the per-item body `step` so that
store failures can be injected; the fault-free bodies are
`customerStepOk` / `orderStepOk` below. -/

def processItems {α : Type} (step : DB → α → Except String DB) :
    DB → List α → DB × List String
  | db, [] => (db, [])
  | db, a :: rest =>
    match step db a with
    | .ok db' => processItems step db' rest
    | .error e =>
      let p := processItems step db rest
      (p.1, e :: p.2)

/-- The customer loop body when the store call succeeds. -/
def customerStepOk (storeId : String) : DB → RawCustomer → Except String DB :=
  fun db c => .ok (customerUpsert db storeId c)

/-- The order loop body (lookup plus upsert) when the store calls succeed. -/
def orderStepOk (storeId : String) : DB → RawOrder → Except String DB :=
  fun db o => .ok (orderUpsert db storeId o)

/-! ## syncHistoricalData (route.ts lines 10-108)

The upstream interaction is an input: each collection fetch either throws
(network failure, modelled `.error`) or yields a response that is `ok`
with a parsed body or not-`ok` with a diagnostic text.  The outer
`try { ... } catch { log }` of the source is the final `match`: an
exception escaping the body is caught and only logged, with the store
mutations made before the throw kept. -/

inductive HttpResp (α : Type) where
  | success (body : α)
  | failure (text : String)
deriving DecidableEq, Repr

structure SyncInput where
  custFetch : Except String (HttpResp (List RawCustomer))
  orderFetch : Except String (HttpResp (List RawOrder))
deriving Repr

structure SyncResult where
  db : DB
  log : List String
deriving DecidableEq, Repr

/-- The body of `syncHistoricalData` with exceptions propagating (no outer
catch); the error value carries the store state at the throw, since
already-executed writes are not rolled back. -/
def syncAttempt (custStep : DB → RawCustomer → Except String DB)
    (orderStep : DB → RawOrder → Except String DB)
    (inp : SyncInput) (db0 : DB) : Except (String × DB) SyncResult :=
  match inp.custFetch with
  | .error e => .error (e, db0)
  | .ok custResp =>
    let p1 : DB × List String :=
      match custResp with
      | .success customers => processItems custStep db0 customers
      | .failure t => (db0, ["[SYNC] Failed to fetch customers: " ++ t])
    match inp.orderFetch with
    | .error e => .error (e, p1.1)
    | .ok orderResp =>
      let p2 : DB × List String :=
        match orderResp with
        | .success orders => processItems orderStep p1.1 orders
        | .failure t => (p1.1, ["[SYNC] Failed to fetch orders: " ++ t])
      .ok ⟨p2.1, p1.2 ++ p2.2⟩

/-- `syncHistoricalData`: the body wrapped in the outer `try`/`catch` of
route.ts lines 12 and 105-107, which logs the error and returns normally.
The result type still allows an exception so that `never throws` is a
statement, not a typing accident. -/
def syncHistoricalData (custStep : DB → RawCustomer → Except String DB)
    (orderStep : DB → RawOrder → Except String DB)
    (inp : SyncInput) (db0 : DB) : Except String SyncResult :=
  match syncAttempt custStep orderStep inp db0 with
  | .ok r => .ok r
  | .error (e, dbAt) => .ok ⟨dbAt, ["[SYNC] Error during historical sync: " ++ e]⟩

/-- The fault-free run of `syncHistoricalData` for a store. -/
def syncRun (storeId : String) (inp : SyncInput) (db0 : DB) :
    Except String SyncResult :=
  syncHistoricalData (customerStepOk storeId) (orderStepOk storeId) inp db0

/-! ## Operation trace of a sync run

The same control flow observed through the sequence of external operations
it performs, for the ordering claims.  `.delay` is in the vocabulary so
that the absence of backoff delays is statable. -/

inductive Event where
  | fetchCustomers
  | fetchOrders
  | custUpsert (sid stid : String)
  | custLookup (sid stid : String)
  | orderUpsert (sid stid : String)
  | delay (ms : Nat)
deriving DecidableEq, Repr

def isCustUpsert : Event → Bool
  | .custUpsert _ _ => true
  | _ => false

/-- An operation of the order phase: an order upsert or the
customer-linking lookup done for an order. -/
def isOrderOp : Event → Bool
  | .custLookup _ _ => true
  | .orderUpsert _ _ => true
  | _ => false

def isDelay : Event → Bool
  | .delay _ => true
  | _ => false

/-- Events of one iteration of the order loop (route.ts lines 60-96): the
conditional customer lookup, then the order upsert. -/
def orderItemEvents (storeId : String) (o : RawOrder) : List Event :=
  (match o.customer with
   | some oc => [.custLookup (toString oc.id) storeId]
   | none => []) ++ [.orderUpsert (toString o.id) storeId]

/-- The operations `syncHistoricalData` performs, in program order: the
customers fetch, one upsert per fetched customer, the orders fetch, then
per order the conditional lookup and the upsert.  A throwing fetch ends
the run at the outer catch. -/
def syncTrace (storeId : String) (inp : SyncInput) : List Event :=
  .fetchCustomers ::
    match inp.custFetch with
    | .error _ => []
    | .ok custResp =>
      (match custResp with
       | .success customers =>
           customers.map (fun c => .custUpsert (toString c.id) storeId)
       | .failure _ => ([] : List Event)) ++
      (.fetchOrders ::
        match inp.orderFetch with
        | .error _ => []
        | .ok orderResp =>
          match orderResp with
          | .success orders => orders.flatMap (orderItemEvents storeId)
          | .failure _ => [])

/-! ## The POST handler (route.ts lines 110-180)

`currentUser()` and the store table are inputs; the handler resolves a
store, with the documented dev fallback to `findFirst()` over all stores,
and dispatches `syncHistoricalData` either awaited (`wait=true`, `200`)
or detached (`202`). -/

inductive RespBody where
  | errorMsg (msg : String)
  | errorHint (msg hint : String)
  | okMsg (ok : Bool) (message : String)
deriving DecidableEq, Repr

structure PostRequest where
  storeIdParam : Option String
  wait : Bool
deriving DecidableEq, Repr

structure World where
  dbReachable : Bool
  user : Option String
  stores : List StoreRow
  sync : SyncInput
  db0 : DB
deriving Repr

structure PostResult where
  status : Nat
  body : RespBody
  dispatched : Option StoreRow
  waited : Bool
deriving DecidableEq, Repr

/-- Store resolution of route.ts lines 132-154: an explicit `storeId` is
looked up and ownership-checked; otherwise the requester's first store is
used, with the `Fallback for testing/dev` taking the first store of the
whole table when the requester owns none. -/
def resolveStore (stores : List StoreRow) (userId : String) :
    Option String → Except (Nat × RespBody) StoreRow
  | some sid =>
    match stores.find? (fun s => s.id == sid) with
    | none => .error (404, .errorMsg "Store not found for provided storeId.")
    | some s =>
      if s.userId == userId then .ok s
      else .error (403, .errorMsg "You do not have access to this store.")
  | none =>
    match stores.find? (fun s => s.userId == userId) with
    | some s => .ok s
    | none =>
      match stores.find? (fun _ => true) with
      | some s => .ok s
      | none => .error (404, .errorMsg "No store connected and no stores found.")

/-- The authenticated tail of the handler: resolve the store, then either
await the sync (`200`) or dispatch it detached (`202`). -/
def POSTauth (stores : List StoreRow) (uid : String) (req : PostRequest) : PostResult :=
  match resolveStore stores uid req.storeIdParam with
  | .error p => ⟨p.1, p.2, none, false⟩
  | .ok store =>
    if req.wait then ⟨200, .okMsg true "Sync completed", some store, true⟩
    else ⟨202, .okMsg true "Sync started", some store, false⟩

def POST (w : World) (req : PostRequest) : PostResult :=
  if !w.dbReachable then
    ⟨503,
      .errorHint
        "Database is unreachable. Please check DATABASE_URL and network connectivity and try again."
        "Verify your DB server is running and accessible from this environment.",
      none, false⟩
  else
    match w.user with
    | none => ⟨401, .errorMsg "Not authenticated", none, false⟩
    | some uid => POSTauth w.stores uid req

/-! ## Collection fetch and pagination

The route (route.ts lines 13-19 and 52-58) issues a single request per
collection and uses only that response.  The upstream collection is a
sequence of pages, each a batch of records plus the optional next-page
cursor from the response `Link` header; the single request is answered
with the first page. -/

structure Page (α : Type) where
  records : List α
  nextCursor : Option String
deriving DecidableEq, Repr

/-- The route's fetch of a collection: one `fetch` call, records taken
from its body; the second component counts requests issued. -/
def routeSingleFetch {α : Type} (pages : List (Page α)) : List α × Nat :=
  (((pages.head?).map Page.records).getD [], 1)

/-- `fetchAllFromShopify` from the sync variant in
src/src/app/dashboard/page.tsx (lines 706-730): request a page, append its
records, and continue on the URL from the `rel="next"` link while one is
present.  An exhausted page list models a request answered with an empty
body and no link header. -/
def fetchAllFromShopify {α : Type} : List (Page α) → List α × Nat
  | [] => ([], 1)
  | p :: rest =>
    match p.nextCursor with
    | none => (p.records, 1)
    | some _ =>
      let q := fetchAllFromShopify rest
      (p.records ++ q.1, q.2 + 1)

/-! ## The retry wrapper `withRetry`

From the sync variant in src/src/app/dashboard/page.tsx (lines 433-450).
Errors are classified retryable by string-matching the message against the
connection-pool signatures; the delay before retry number `n` is
`baseDelayMs * 2^(n-1)`; once `attempt > retries`, or on any
non-retryable error, the caught error itself is rethrown.  The operation
is indexed by the number of attempts already made, and the second
component collects the delays slept. -/

inductive JsError where
  | raw (msg : String)
  | retryExhausted (label : String) (attempts : Nat) (lastMsg : String)
deriving DecidableEq, Repr

def errMessage : JsError → String
  | .raw m => m
  | .retryExhausted _ _ m => m

def isRetryExhausted : JsError → Bool
  | .retryExhausted _ _ _ => true
  | _ => false

/-- `message.includes(pat)` of JavaScript. -/
def strIncludes (msg pat : String) : Bool :=
  decide (pat.toList <:+: msg.toList)

def isPoolTimeout (msg : String) : Bool :=
  strIncludes msg "connection pool" ||
  strIncludes msg "P2024" ||
  strIncludes msg "Timed out fetching a new connection"

def withRetryGo {α : Type} (op : Nat → Except JsError α) (baseDelayMs : Nat) :
    Nat → Nat → Except JsError α × List Nat
  | attempt, fuel =>
    match op attempt with
    | .ok v => (.ok v, [])
    | .error e =>
      match fuel with
      | 0 => (.error e, [])
      | f + 1 =>
        if isPoolTimeout (errMessage e) then
          let q := withRetryGo op baseDelayMs (attempt + 1) f
          (q.1, baseDelayMs * 2 ^ attempt :: q.2)
        else (.error e, [])

def withRetry {α : Type} (op : Nat → Except JsError α) (retries baseDelayMs : Nat) :
    Except JsError α × List Nat :=
  withRetryGo op baseDelayMs 0 retries

/-! ## Generic facts about a keyed row list under find-or-update -/

section KeyedRows

variable {ρ κ : Type}
variable {p : ρ → Bool} {u : ρ → ρ} {k : ρ → κ} {key : κ}

theorem find?_append_of_none {l1 l2 : List ρ} (h : l1.find? p = none) :
    (l1 ++ l2).find? p = l2.find? p := by
  induction l1 with
  | nil => rfl
  | cons a t ih =>
    rw [List.find?_eq_none] at h
    have ha : ¬ p a = true := h a (by simp)
    rw [List.cons_append, List.find?_cons_of_neg _ ha]
    exact ih (List.find?_eq_none.2 fun x hx => h x (by simp [hx]))

theorem map_upd_of_none {l : List ρ} (h : ∀ x ∈ l, p x = false) :
    l.map (fun r => if p r then u r else r) = l := by
  have : l.map (fun r => if p r then u r else r) = l.map id :=
    List.map_congr_left fun a ha => by simp [h a ha]
  simpa using this

theorem find?_map_upd (hp : ∀ r, p (u r) = p r) (l : List ρ) :
    (l.map (fun r => if p r then u r else r)).find? p =
      (l.find? p).map (fun r => if p r then u r else r) := by
  induction l with
  | nil => rfl
  | cons a t ih =>
    by_cases ha : p a = true
    · rw [List.map_cons, List.find?_cons_of_pos _ (by rw [if_pos ha, hp]; exact ha),
        List.find?_cons_of_pos _ ha]
      simp
    · rw [List.map_cons, List.find?_cons_of_neg _ (by rw [if_neg ha]; exact ha),
        List.find?_cons_of_neg _ ha, ih]

theorem filter_map_upd (hp : ∀ r, p (u r) = p r) (l : List ρ) :
    (l.map (fun r => if p r then u r else r)).filter p = (l.filter p).map u := by
  induction l with
  | nil => rfl
  | cons a t ih =>
    by_cases ha : p a = true
    · rw [List.map_cons, if_pos ha, List.filter_cons, if_pos (by rw [hp]; exact ha),
        List.filter_cons, if_pos ha, List.map_cons, ih]
    · rw [List.map_cons, if_neg ha, List.filter_cons, if_neg ha, List.filter_cons,
        if_neg ha]
      exact ih

theorem upd_map_upd (hidem : ∀ r, u (u r) = u r) (hp : ∀ r, p (u r) = p r) (l : List ρ) :
    (l.map (fun r => if p r then u r else r)).map (fun r => if p r then u r else r) =
      l.map (fun r => if p r then u r else r) := by
  rw [List.map_map]
  refine List.map_congr_left fun a _ => ?_
  by_cases ha : p a = true
  · simp [ha, hp, hidem]
  · simp only [Bool.not_eq_true] at ha
    simp [ha]

theorem keys_map_upd (hku : ∀ r, k (u r) = k r) (l : List ρ) :
    (l.map (fun r => if p r then u r else r)).map k = l.map k := by
  rw [List.map_map]
  exact List.map_congr_left fun a _ => by by_cases ha : p a = true <;> simp [ha, hku]

theorem filter_eq_single_of_nodup (hk : ∀ r, p r = true ↔ k r = key)
    {l : List ρ} (hn : (l.map k).Nodup) {r0 : ρ} (hf : l.find? p = some r0) :
    l.filter p = [r0] := by
  induction l with
  | nil => simp at hf
  | cons a t ih =>
    rw [List.map_cons, List.nodup_cons] at hn
    by_cases ha : p a = true
    · rw [List.find?_cons_of_pos _ ha] at hf
      injection hf with h0
      subst h0
      rw [List.filter_cons, if_pos ha]
      have ht : t.filter p = [] := by
        rw [List.filter_eq_nil_iff]
        intro x hx hpx
        exact hn.1 (by
          refine List.mem_map.2 ⟨x, hx, ?_⟩
          rw [(hk x).1 hpx, (hk a).1 ha])
      rw [ht]
    · rw [List.find?_cons_of_neg _ ha] at hf
      rw [List.filter_cons, if_neg ha]
      exact ih hn.2 hf

theorem key_not_mem_of_find?_none (hk : ∀ r, p r = true ↔ k r = key)
    {l : List ρ} (h : l.find? p = none) : key ∉ l.map k := by
  rw [List.find?_eq_none] at h
  intro hmem
  rcases List.mem_map.1 hmem with ⟨r, hr, hkr⟩
  exact h r hr ((hk r).2 hkr)

theorem nodup_append_singleton {l : List κ} {a : κ} (hn : l.Nodup) (ha : a ∉ l) :
    (l ++ [a]).Nodup := by
  rw [List.nodup_append]
  refine ⟨hn, List.nodup_singleton a, fun x hx hxa => ?_⟩
  rw [List.mem_singleton] at hxa
  exact ha (hxa ▸ hx)

end KeyedRows

/-! ## Characterization of the customer upsert -/

theorem custMatch_iff (sid stid : String) (r : CustomerRow) :
    custMatch sid stid r = true ↔ (r.shopifyId, r.storeId) = (sid, stid) := by
  simp [custMatch, Prod.ext_iff]

theorem custMatch_upd (sid stid : String) (c : RawCustomer) (r : CustomerRow) :
    custMatch sid stid (updCust c r) = custMatch sid stid r := rfl

theorem updCust_idem (c : RawCustomer) (r : CustomerRow) :
    updCust c (updCust c r) = updCust c r := rfl

theorem custMatch_newCust (n : Nat) (sid stid : String) (c : RawCustomer) :
    custMatch sid stid (newCust n sid stid c) = true := by
  simp [custMatch, newCust]

theorem updCust_newCust (n : Nat) (sid stid : String) (c : RawCustomer) :
    updCust c (newCust n sid stid c) = newCust n sid stid c := rfl

theorem customerUpsert_of_none {db : DB} {storeId : String} {c : RawCustomer}
    (h : findUniqueCustomer db (toString c.id) storeId = none) :
    customerUpsert db storeId c =
      { db with
          customers := db.customers ++ [newCust db.nextId (toString c.id) storeId c],
          nextId := db.nextId + 1 } := by
  simp only [customerUpsert, h]

theorem customerUpsert_of_some {db : DB} {storeId : String} {c : RawCustomer}
    {r0 : CustomerRow} (h : findUniqueCustomer db (toString c.id) storeId = some r0) :
    customerUpsert db storeId c =
      { db with
          customers := db.customers.map
            (fun r => if custMatch (toString c.id) storeId r then updCust c r else r) } := by
  simp only [customerUpsert, h]

theorem custRowsFor_customerUpsert (db : DB) (storeId : String) (c : RawCustomer)
    (hn : custKeysNodup db) :
    (custRowsFor (customerUpsert db storeId c) (toString c.id) storeId).length = 1 ∧
    ∀ r ∈ custRowsFor (customerUpsert db storeId c) (toString c.id) storeId,
      r.email = c.email ∧ r.firstName = c.first_name ∧ r.lastName = c.last_name := by
  cases h : findUniqueCustomer db (toString c.id) storeId with
  | none =>
    rw [customerUpsert_of_none h]
    have hnil : db.customers.filter (custMatch (toString c.id) storeId) = [] :=
      List.filter_eq_nil_iff.2 (List.find?_eq_none.1 h)
    have : custRowsFor
        { db with
            customers := db.customers ++ [newCust db.nextId (toString c.id) storeId c],
            nextId := db.nextId + 1 } (toString c.id) storeId =
        [newCust db.nextId (toString c.id) storeId c] := by
      unfold custRowsFor
      rw [List.filter_append, hnil, List.filter_cons,
        if_pos (custMatch_newCust db.nextId (toString c.id) storeId c)]
      simp
    rw [this]
    refine ⟨rfl, fun r hr => ?_⟩
    rw [List.mem_singleton] at hr
    subst hr
    exact ⟨rfl, rfl, rfl⟩
  | some r0 =>
    rw [customerUpsert_of_some h]
    have : custRowsFor
        { db with
            customers := db.customers.map
              (fun r => if custMatch (toString c.id) storeId r then updCust c r else r) }
          (toString c.id) storeId = [updCust c r0] := by
      unfold custRowsFor
      rw [filter_map_upd (fun r => custMatch_upd _ _ _ _) db.customers,
        filter_eq_single_of_nodup (custMatch_iff (toString c.id) storeId) hn h]
      rfl
    rw [this]
    refine ⟨rfl, fun r hr => ?_⟩
    rw [List.mem_singleton] at hr
    subst hr
    exact ⟨rfl, rfl, rfl⟩

theorem custKeysNodup_customerUpsert (db : DB) (storeId : String) (c : RawCustomer)
    (hn : custKeysNodup db) : custKeysNodup (customerUpsert db storeId c) := by
  cases h : findUniqueCustomer db (toString c.id) storeId with
  | none =>
    rw [customerUpsert_of_none h]
    unfold custKeysNodup at hn ⊢
    rw [List.map_append]
    exact nodup_append_singleton hn
      (key_not_mem_of_find?_none (custMatch_iff (toString c.id) storeId) h)
  | some r0 =>
    rw [customerUpsert_of_some h]
    unfold custKeysNodup at hn ⊢
    show (List.map (fun r => (r.shopifyId, r.storeId))
      (db.customers.map
        (fun r => if custMatch (toString c.id) storeId r then updCust c r else r))).Nodup
    rw [keys_map_upd (u := updCust c)
      (k := fun (r : CustomerRow) => (r.shopifyId, r.storeId)) (fun r => rfl)]
    exact hn

theorem customerUpsert_idem (db : DB) (storeId : String) (c : RawCustomer) :
    customerUpsert (customerUpsert db storeId c) storeId c = customerUpsert db storeId c := by
  cases h : findUniqueCustomer db (toString c.id) storeId with
  | none =>
    rw [customerUpsert_of_none h]
    have h2 : findUniqueCustomer
        { db with
            customers := db.customers ++ [newCust db.nextId (toString c.id) storeId c],
            nextId := db.nextId + 1 } (toString c.id) storeId =
        some (newCust db.nextId (toString c.id) storeId c) := by
      unfold findUniqueCustomer at h ⊢
      rw [find?_append_of_none h,
        List.find?_cons_of_pos _ (custMatch_newCust db.nextId (toString c.id) storeId c)]
    rw [customerUpsert_of_some h2]
    have hmap : (db.customers ++ [newCust db.nextId (toString c.id) storeId c]).map
        (fun r => if custMatch (toString c.id) storeId r then updCust c r else r) =
        db.customers ++ [newCust db.nextId (toString c.id) storeId c] := by
      rw [List.map_append,
        map_upd_of_none (fun x hx => by
          have := List.find?_eq_none.1 h x hx
          simpa using this)]
      simp [updCust_newCust, custMatch_newCust]
    simp [hmap]
  | some r0 =>
    rw [customerUpsert_of_some h]
    have h2 : findUniqueCustomer
        { db with
            customers := db.customers.map
              (fun r => if custMatch (toString c.id) storeId r then updCust c r else r) }
          (toString c.id) storeId =
        some (if custMatch (toString c.id) storeId r0 then updCust c r0 else r0) := by
      unfold findUniqueCustomer at h ⊢
      rw [find?_map_upd (fun r => custMatch_upd _ _ _ _) db.customers, h]
      rfl
    rw [customerUpsert_of_some h2]
    simp only
    rw [upd_map_upd (updCust_idem c) (fun r => custMatch_upd _ _ _ _) db.customers]

/-! ## Characterization of the order upsert -/

theorem orderMatch_iff (sid stid : String) (r : OrderRow) :
    orderMatch sid stid r = true ↔ (r.shopifyId, r.storeId) = (sid, stid) := by
  simp [orderMatch, Prod.ext_iff]

theorem orderMatch_upd (sid stid : String) (o : RawOrder) (r : OrderRow) :
    orderMatch sid stid (updOrder o r) = orderMatch sid stid r := rfl

theorem updOrder_idem (o : RawOrder) (r : OrderRow) :
    updOrder o (updOrder o r) = updOrder o r := rfl

theorem orderMatch_newOrder (n : Nat) (sid stid : String) (o : RawOrder)
    (cust : Option CustomerRow) :
    orderMatch sid stid (newOrder n sid stid o cust) = true := by
  simp [orderMatch, newOrder]

theorem updOrder_newOrder (n : Nat) (sid stid : String) (o : RawOrder)
    (cust : Option CustomerRow) :
    updOrder o (newOrder n sid stid o cust) = newOrder n sid stid o cust := rfl

theorem orderUpsert_of_none {db : DB} {storeId : String} {o : RawOrder}
    (h : findUniqueOrder db (toString o.id) storeId = none) :
    orderUpsert db storeId o =
      { db with
          orders := db.orders ++
            [newOrder db.nextId (toString o.id) storeId o (lookupOrderCustomer db storeId o)],
          nextId := db.nextId + 1 } := by
  simp only [orderUpsert, h]

theorem orderUpsert_of_some {db : DB} {storeId : String} {o : RawOrder}
    {r0 : OrderRow} (h : findUniqueOrder db (toString o.id) storeId = some r0) :
    orderUpsert db storeId o =
      { db with
          orders := db.orders.map
            (fun r => if orderMatch (toString o.id) storeId r then updOrder o r else r) } := by
  simp only [orderUpsert, h]

theorem orderRowsFor_orderUpsert_of_none {db : DB} {storeId : String} {o : RawOrder}
    (h : findUniqueOrder db (toString o.id) storeId = none) :
    orderRowsFor (orderUpsert db storeId o) (toString o.id) storeId =
      [newOrder db.nextId (toString o.id) storeId o (lookupOrderCustomer db storeId o)] := by
  rw [orderUpsert_of_none h]
  have hnil : db.orders.filter (orderMatch (toString o.id) storeId) = [] :=
    List.filter_eq_nil_iff.2 (List.find?_eq_none.1 h)
  unfold orderRowsFor
  rw [List.filter_append, hnil, List.filter_cons,
    if_pos (orderMatch_newOrder db.nextId (toString o.id) storeId o _)]
  simp

theorem orderRowsFor_orderUpsert_of_some {db : DB} {storeId : String} {o : RawOrder}
    {r0 : OrderRow} (hn : orderKeysNodup db)
    (h : findUniqueOrder db (toString o.id) storeId = some r0) :
    orderRowsFor (orderUpsert db storeId o) (toString o.id) storeId = [updOrder o r0] := by
  rw [orderUpsert_of_some h]
  unfold orderRowsFor
  rw [filter_map_upd (fun r => orderMatch_upd _ _ _ _) db.orders,
    filter_eq_single_of_nodup (orderMatch_iff (toString o.id) storeId) hn h]
  rfl

theorem orderKeysNodup_orderUpsert (db : DB) (storeId : String) (o : RawOrder)
    (hn : orderKeysNodup db) : orderKeysNodup (orderUpsert db storeId o) := by
  cases h : findUniqueOrder db (toString o.id) storeId with
  | none =>
    rw [orderUpsert_of_none h]
    unfold orderKeysNodup at hn ⊢
    rw [List.map_append]
    exact nodup_append_singleton hn
      (key_not_mem_of_find?_none (orderMatch_iff (toString o.id) storeId) h)
  | some r0 =>
    rw [orderUpsert_of_some h]
    unfold orderKeysNodup at hn ⊢
    show (List.map (fun r => (r.shopifyId, r.storeId))
      (db.orders.map
        (fun r => if orderMatch (toString o.id) storeId r then updOrder o r else r))).Nodup
    rw [keys_map_upd (u := updOrder o)
      (k := fun (r : OrderRow) => (r.shopifyId, r.storeId)) (fun r => rfl)]
    exact hn

theorem orderUpsert_idem (db : DB) (storeId : String) (o : RawOrder) :
    orderUpsert (orderUpsert db storeId o) storeId o = orderUpsert db storeId o := by
  cases h : findUniqueOrder db (toString o.id) storeId with
  | none =>
    rw [orderUpsert_of_none h]
    have h2 : findUniqueOrder
        { db with
            orders := db.orders ++
              [newOrder db.nextId (toString o.id) storeId o (lookupOrderCustomer db storeId o)],
            nextId := db.nextId + 1 } (toString o.id) storeId =
        some (newOrder db.nextId (toString o.id) storeId o (lookupOrderCustomer db storeId o)) := by
      unfold findUniqueOrder at h ⊢
      rw [find?_append_of_none h,
        List.find?_cons_of_pos _ (orderMatch_newOrder db.nextId (toString o.id) storeId o _)]
    rw [orderUpsert_of_some h2]
    have hmap : (db.orders ++
        [newOrder db.nextId (toString o.id) storeId o (lookupOrderCustomer db storeId o)]).map
        (fun r => if orderMatch (toString o.id) storeId r then updOrder o r else r) =
        db.orders ++
          [newOrder db.nextId (toString o.id) storeId o (lookupOrderCustomer db storeId o)] := by
      rw [List.map_append,
        map_upd_of_none (fun x hx => by
          have := List.find?_eq_none.1 h x hx
          simpa using this)]
      simp [updOrder_newOrder, orderMatch_newOrder]
    simp [hmap]
  | some r0 =>
    rw [orderUpsert_of_some h]
    have h2 : findUniqueOrder
        { db with
            orders := db.orders.map
              (fun r => if orderMatch (toString o.id) storeId r then updOrder o r else r) }
          (toString o.id) storeId =
        some (if orderMatch (toString o.id) storeId r0 then updOrder o r0 else r0) := by
      unfold findUniqueOrder at h ⊢
      rw [find?_map_upd (fun r => orderMatch_upd _ _ _ _) db.orders, h]
      rfl
    rw [orderUpsert_of_some h2]
    simp only
    rw [upd_map_upd (updOrder_idem o) (fun r => orderMatch_upd _ _ _ _) db.orders]

/-! ## Facts about withRetry -/

theorem withRetryGo_ok {α : Type} (op : Nat → Except JsError α) (d : Nat) (v : α)
    (msgs : Nat → String) (fuel : Nat) :
    ∀ attempt,
      (∀ i, i < fuel → op (attempt + i) = .error (.raw (msgs (attempt + i))) ∧
          isPoolTimeout (msgs (attempt + i)) = true) →
      op (attempt + fuel) = .ok v →
      withRetryGo op d attempt fuel =
        (.ok v, (List.range fuel).map (fun n => d * 2 ^ (attempt + n))) := by
  induction fuel with
  | zero =>
    intro attempt _ hok
    rw [Nat.add_zero] at hok
    rw [withRetryGo, hok]
    simp
  | succ f ih =>
    intro attempt hfail hok
    have h0 := hfail 0 (Nat.succ_pos f)
    rw [Nat.add_zero] at h0
    rw [withRetryGo, h0.1]
    simp only [errMessage]
    rw [if_pos h0.2]
    have hfail2 : ∀ i, i < f →
        op (attempt + 1 + i) = .error (.raw (msgs (attempt + 1 + i))) ∧
          isPoolTimeout (msgs (attempt + 1 + i)) = true := by
      intro i hi
      have := hfail (i + 1) (by omega)
      rwa [show attempt + (i + 1) = attempt + 1 + i by omega] at this
    have hok2 : op (attempt + 1 + f) = .ok v := by
      rwa [show attempt + (f + 1) = attempt + 1 + f by omega] at hok
    rw [ih (attempt + 1) hfail2 hok2]
    refine congrArg (Prod.mk _) ?_
    rw [List.range_succ_eq_map, List.map_cons, List.map_map, Nat.add_zero]
    refine congrArg (List.cons _) ?_
    refine List.map_congr_left fun n _ => ?_
    simp only [Function.comp_apply, Nat.succ_eq_add_one]
    rw [show attempt + 1 + n = attempt + (n + 1) by omega]

theorem withRetryGo_exhaust {α : Type} (op : Nat → Except JsError α) (d : Nat)
    (msgs : Nat → String) (fuel : Nat) :
    ∀ attempt,
      (∀ i, i ≤ fuel → op (attempt + i) = .error (.raw (msgs (attempt + i))) ∧
          isPoolTimeout (msgs (attempt + i)) = true) →
      withRetryGo op d attempt fuel =
        (.error (.raw (msgs (attempt + fuel))),
          (List.range fuel).map (fun n => d * 2 ^ (attempt + n))) := by
  induction fuel with
  | zero =>
    intro attempt hfail
    have h0 := (hfail 0 (Nat.le_refl 0)).1
    rw [Nat.add_zero] at h0 ⊢
    rw [withRetryGo, h0]
    simp
  | succ f ih =>
    intro attempt hfail
    have h0 := hfail 0 (Nat.zero_le _)
    rw [Nat.add_zero] at h0
    rw [withRetryGo, h0.1]
    simp only [errMessage]
    rw [if_pos h0.2]
    have hfail2 : ∀ i, i ≤ f →
        op (attempt + 1 + i) = .error (.raw (msgs (attempt + 1 + i))) ∧
          isPoolTimeout (msgs (attempt + 1 + i)) = true := by
      intro i hi
      have := hfail (i + 1) (by omega)
      rwa [show attempt + (i + 1) = attempt + 1 + i by omega] at this
    rw [ih (attempt + 1) hfail2]
    rw [show attempt + 1 + f = attempt + (f + 1) by omega]
    refine congrArg (Prod.mk _) ?_
    rw [List.range_succ_eq_map, List.map_cons, List.map_map, Nat.add_zero]
    refine congrArg (List.cons _) ?_
    refine List.map_congr_left fun n _ => ?_
    simp only [Function.comp_apply, Nat.succ_eq_add_one]
    rw [show attempt + 1 + n = attempt + (n + 1) by omega]

/-! ## Pagination completeness of fetchAllFromShopify -/

/-- A well-formed upstream collection: every page but the last carries a
next cursor, the last page carries none. -/
def wellPaged {α : Type} : List (Page α) → Bool
  | [] => true
  | [p] => p.nextCursor.isNone
  | p :: q :: rest => p.nextCursor.isSome && wellPaged (q :: rest)

theorem fetchAll_complete {α : Type} :
    ∀ pages : List (Page α), pages ≠ [] → wellPaged pages = true →
      fetchAllFromShopify pages = (pages.flatMap Page.records, pages.length)
  | [], hne, _ => absurd rfl hne
  | [p], _, hw => by
    rw [wellPaged] at hw
    cases hcur : p.nextCursor with
    | none =>
      rw [fetchAllFromShopify, hcur]
      simp
    | some c => rw [hcur] at hw; simp at hw
  | p :: q :: rest, _, hw => by
    rw [wellPaged, Bool.and_eq_true] at hw
    cases hcur : p.nextCursor with
    | none => rw [hcur] at hw; simp at hw
    | some c =>
      rw [fetchAllFromShopify, hcur,
        fetchAll_complete (q :: rest) (by simp) hw.2]
      simp [List.flatMap_cons]

theorem length_flatMap_const {α : Type} (pages : List (Page α)) (m : Nat)
    (hm : ∀ p ∈ pages, p.records.length = m) :
    (pages.flatMap Page.records).length = pages.length * m := by
  induction pages with
  | nil => simp
  | cons p t ih =>
    rw [List.flatMap_cons, List.length_append, hm p (by simp),
      ih (fun q hq => hm q (by simp [hq])), List.length_cons, Nat.succ_mul]
    omega

/-! ## Decomposition of the sync trace into its two phases -/

def custPhase (storeId : String) (inp : SyncInput) : List Event :=
  .fetchCustomers ::
    match inp.custFetch with
    | .error _ => []
    | .ok (.success customers) =>
        customers.map (fun c => .custUpsert (toString c.id) storeId)
    | .ok (.failure _) => []

def orderPhase (storeId : String) (inp : SyncInput) : List Event :=
  match inp.custFetch with
  | .error _ => []
  | .ok _ =>
    .fetchOrders ::
      match inp.orderFetch with
      | .error _ => []
      | .ok (.success orders) => orders.flatMap (orderItemEvents storeId)
      | .ok (.failure _) => []

theorem syncTrace_eq_phases (storeId : String) (inp : SyncInput) :
    syncTrace storeId inp = custPhase storeId inp ++ orderPhase storeId inp := by
  obtain ⟨cf, og⟩ := inp
  cases cf with
  | error e => rfl
  | ok cr =>
    cases cr with
    | success cs =>
      cases og with
      | error e2 => simp [syncTrace, custPhase, orderPhase]
      | ok orr => cases orr <;> simp [syncTrace, custPhase, orderPhase]
    | failure t =>
      cases og with
      | error e2 => simp [syncTrace, custPhase, orderPhase]
      | ok orr => cases orr <;> simp [syncTrace, custPhase, orderPhase]

theorem custPhase_no_orderOp (storeId : String) (inp : SyncInput) :
    ∀ e ∈ custPhase storeId inp, isOrderOp e = false := by
  obtain ⟨cf, og⟩ := inp
  intro e he
  rcases List.mem_cons.1 he with h | h
  · subst h; rfl
  · cases cf with
    | error _ => simp [custPhase] at h
    | ok cr =>
      cases cr with
      | success cs =>
        simp only [custPhase] at h
        rcases List.mem_map.1 h with ⟨c2, _, rfl⟩
        rfl
      | failure t => simp [custPhase] at h

theorem orderPhase_no_custUpsert (storeId : String) (inp : SyncInput) :
    ∀ e ∈ orderPhase storeId inp, isCustUpsert e = false := by
  obtain ⟨cf, og⟩ := inp
  intro e he
  cases cf with
  | error _ => simp [orderPhase] at he
  | ok cr =>
    simp only [orderPhase] at he
    rcases List.mem_cons.1 he with h | h
    · subst h; rfl
    · cases og with
      | error _ => simp at h
      | ok orr =>
        cases orr with
        | success orders =>
          simp only at h
          rcases List.mem_flatMap.1 h with ⟨o, _, ho⟩
          unfold orderItemEvents at ho
          rcases List.mem_append.1 ho with h2 | h2
          · cases hoc : o.customer with
            | some oc => rw [hoc] at h2; rw [List.mem_singleton] at h2; subst h2; rfl
            | none => rw [hoc] at h2; simp at h2
          · rw [List.mem_singleton] at h2; subst h2; rfl
        | failure t => simp at h

theorem appended_phases_ordered {l1 l2 : List Event}
    (h1 : ∀ e ∈ l1, isOrderOp e = false) (h2 : ∀ e ∈ l2, isCustUpsert e = false)
    {i j : Nat} (hi : i < (l1 ++ l2).length) (hj : j < (l1 ++ l2).length)
    (hci : isCustUpsert ((l1 ++ l2).get ⟨i, hi⟩) = true)
    (hoj : isOrderOp ((l1 ++ l2).get ⟨j, hj⟩) = true) : i < j := by
  have hiL : i < l1.length := by
    rcases Nat.lt_or_ge i l1.length with hlt | hle
    · exact hlt
    · exfalso
      have hlen : i - l1.length < l2.length := by
        rw [List.length_append] at hi
        omega
      have hm : (l1 ++ l2).get ⟨i, hi⟩ ∈ l2 := by
        rw [@List.get_append_right Event i l1 l2 hle hi hlen]
        exact List.get_mem _ _ _
      rw [h2 _ hm] at hci
      exact Bool.false_ne_true hci
  have hjR : l1.length ≤ j := by
    rcases Nat.lt_or_ge j l1.length with hlt | hle
    · exfalso
      have hm : (l1 ++ l2).get ⟨j, hj⟩ ∈ l1 := by
        have heq : (l1 ++ l2).get ⟨j, hj⟩ = l1.get ⟨j, hlt⟩ := List.get_append j hlt
        rw [heq]
        exact List.get_mem _ _ _
      rw [h1 _ hm] at hoj
      exact Bool.false_ne_true hoj
    · exact hle
  omega

/-! ## Facts about the POST handler -/

theorem resolveStore_some_ok {stores : List StoreRow} {uid sid : String} {s : StoreRow}
    (h : resolveStore stores uid (some sid) = .ok s) : s.id = sid ∧ s.userId = uid := by
  cases hf : stores.find? (fun s2 => s2.id == sid) with
  | none =>
    simp only [resolveStore, hf] at h
    exact Except.noConfusion h
  | some s0 =>
    simp only [resolveStore, hf] at h
    by_cases hu : (s0.userId == uid) = true
    · rw [if_pos hu] at h
      injection h with h0
      subst h0
      refine ⟨?_, by simpa using hu⟩
      have := List.find?_some hf
      simpa using this
    · rw [if_neg hu] at h
      exact Except.noConfusion h

theorem resolveStore_none_ok {stores : List StoreRow} {uid : String} {s : StoreRow}
    (h : resolveStore stores uid none = .ok s) :
    s.userId = uid ∨
      (stores.find? (fun s2 => s2.userId == uid) = none ∧
        stores.find? (fun _ => true) = some s) := by
  cases hf : stores.find? (fun s2 => s2.userId == uid) with
  | some s1 =>
    simp only [resolveStore, hf] at h
    injection h with h0
    subst h0
    left
    have := List.find?_some hf
    simpa using this
  | none =>
    simp only [resolveStore, hf] at h
    cases hg : stores.find? (fun _ => true) with
    | some s2 =>
      rw [hg] at h
      injection h with h0
      subst h0
      exact Or.inr ⟨rfl, rfl⟩
    | none => rw [hg] at h; exact Except.noConfusion h

theorem POST_eq_POSTauth {w : World} {req : PostRequest} {uid : String}
    (hdb : w.dbReachable = true) (hu : w.user = some uid) :
    POST w req = POSTauth w.stores uid req := by
  unfold POST
  rw [hdb, hu]
  exact rfl

theorem POSTauth_dispatched {stores : List StoreRow} {req : PostRequest}
    {uid : String} {s : StoreRow}
    (hd : (POSTauth stores uid req).dispatched = some s) :
    resolveStore stores uid req.storeIdParam = .ok s := by
  unfold POSTauth at hd
  cases hr : resolveStore stores uid req.storeIdParam with
  | error p => rw [hr] at hd; simp at hd
  | ok store =>
    rw [hr] at hd
    by_cases hw2 : req.wait = true
    · simp [hw2] at hd
      rw [hd]
    · simp [hw2] at hd
      rw [hd]

theorem POSTauth_ok {stores : List StoreRow} {req : PostRequest}
    {uid : String} {store : StoreRow}
    (hr : resolveStore stores uid req.storeIdParam = .ok store) :
    POSTauth stores uid req =
      if req.wait then ⟨200, .okMsg true "Sync completed", some store, true⟩
      else ⟨202, .okMsg true "Sync started", some store, false⟩ := by
  unfold POSTauth
  rw [hr]

theorem POSTauth_error {stores : List StoreRow} {req : PostRequest}
    {uid : String} {code : Nat} {b : RespBody}
    (hr : resolveStore stores uid req.storeIdParam = .error (code, b)) :
    POSTauth stores uid req = ⟨code, b, none, false⟩ := by
  unfold POSTauth
  rw [hr]

theorem resolveStore_denied {stores : List StoreRow} {uid sid : String} {s0 : StoreRow}
    (hf : stores.find? (fun s2 => s2.id == sid) = some s0) (hne : s0.userId ≠ uid) :
    resolveStore stores uid (some sid) =
      .error (403, .errorMsg "You do not have access to this store.") := by
  simp only [resolveStore, hf]
  rw [if_neg (by simpa using hne)]

theorem resolveStore_notfound {stores : List StoreRow} {uid sid : String}
    (hf : stores.find? (fun s2 => s2.id == sid) = none) :
    resolveStore stores uid (some sid) =
      .error (404, .errorMsg "Store not found for provided storeId.") := by
  simp only [resolveStore, hf]

/-! ## Concrete fixtures used by witnesses and counterexamples -/

def noSync : SyncInput := ⟨.ok (.failure "noop"), .ok (.failure "noop")⟩

def ownedStore : StoreRow := ⟨"s1", "u1", "shop1.myshopify.com", "tok1"⟩

def strangerStore : StoreRow := ⟨"s9", "u2", "other-shop.myshopify.com", "tok9"⟩

def fallbackWorld : World := ⟨true, some "u1", [strangerStore], noSync, ⟨[], [], 0⟩⟩

def ownedWorld : World := ⟨true, some "u1", [ownedStore], noSync, ⟨[], [], 0⟩⟩

def fiveCustomers : List RawCustomer :=
  [⟨1, none, none, none⟩, ⟨2, none, none, none⟩, ⟨3, none, none, none⟩,
    ⟨4, none, none, none⟩, ⟨5, none, none, none⟩]

def worldFive : World :=
  ⟨true, some "u1", [ownedStore], ⟨.ok (.success fiveCustomers), .ok (.success [])⟩, ⟨[], [], 0⟩⟩

def worldZero : World :=
  ⟨true, some "u1", [ownedStore], ⟨.ok (.success []), .ok (.success [])⟩, ⟨[], [], 0⟩⟩

def wCust : RawCustomer := ⟨10, some "a@b.example", some "Ada", none⟩

def wCustRow : CustomerRow := ⟨2, "10", none, none, none, "s"⟩

def wOrd : RawOrder := ⟨100, "#1", "5.00", "USD", some "paid", none, none, some ⟨10⟩⟩

def wDB : DB := ⟨[wCustRow], [], 3⟩

def preOrderRow : OrderRow := ⟨1, "100", "#1", (500, 2), "USD", none, none, none, "s", none⟩

def preDB : DB := ⟨[wCustRow], [preOrderRow], 3⟩

def twoPages : List (Page Nat) := [⟨[1, 2], some "next"⟩, ⟨[3, 4], none⟩]

def traceInput : SyncInput :=
  ⟨.ok (.success [⟨7, none, none, none⟩]),
    .ok (.success [⟨100, "#1", "5.00", "USD", none, none, none, some ⟨7⟩⟩])⟩

def retryOp : Nat → Except JsError Nat :=
  fun n => if n < 3 then .error (.raw "P2024") else .ok 42

def exhaustOp : Nat → Except JsError Nat :=
  fun _ => .error (.raw "Timed out fetching a new connection")

def failStep : DB → Unit → Except String DB := fun _ _ => .error "boom"

def cexOrder : RawOrder := ⟨100, "#1", "5.00", "USD", some "paid", none, none, none⟩

/-! ## Claims -/

/-- Claim C1, counterexample: with no `storeId` parameter, a requester
(`u1`) who owns no store has the sync dispatched on the first store of the
whole table, which belongs to a different user (`u2`), with a `202`
acceptance rather than an access-denied or not-found failure. -/
theorem C1_counterexample :
    (POST fallbackWorld ⟨none, false⟩).status = 202 ∧
    (POST fallbackWorld ⟨none, false⟩).dispatched = some strangerStore ∧
    strangerStore.userId = "u2" ∧ fallbackWorld.user = some "u1" ∧
    ("u2" : String) ≠ "u1" := by decide

/-- Claim C1 (amended): the ownership check holds exactly on the explicit
path — when a `storeId` parameter is supplied, a dispatched store has that
id and belongs to the requester, a store owned by someone else yields
`403`, and an unknown id yields `404`; without the parameter the
requester's first store is used, and a store of another user can only be
dispatched through the dev fallback taken when the requester owns no
store; with no stores at all the request fails with `404`. -/
theorem C1_amended :
    (∀ (w : World) (uid : String) (req : PostRequest) (s : StoreRow),
      w.dbReachable = true → w.user = some uid → (POST w req).dispatched = some s →
      (∀ sid, req.storeIdParam = some sid → s.id = sid ∧ s.userId = uid) ∧
      (req.storeIdParam = none →
        (s.userId = uid ∨
          (w.stores.find? (fun s2 => s2.userId == uid) = none ∧
            w.stores.find? (fun _ => true) = some s)))) ∧
    (∀ (w : World) (uid sid : String) (s0 : StoreRow) (wa : Bool),
      w.dbReachable = true → w.user = some uid →
      w.stores.find? (fun s2 => s2.id == sid) = some s0 → s0.userId ≠ uid →
      POST w ⟨some sid, wa⟩ =
        ⟨403, .errorMsg "You do not have access to this store.", none, false⟩) ∧
    (∀ (w : World) (uid sid : String) (wa : Bool),
      w.dbReachable = true → w.user = some uid →
      w.stores.find? (fun s2 => s2.id == sid) = none →
      POST w ⟨some sid, wa⟩ =
        ⟨404, .errorMsg "Store not found for provided storeId.", none, false⟩) := by
  refine ⟨?_, ?_, ?_⟩
  · intro w uid req s hdb hu hd
    rw [POST_eq_POSTauth hdb hu] at hd
    have hr := POSTauth_dispatched hd
    constructor
    · intro sid hsid
      rw [hsid] at hr
      exact resolveStore_some_ok hr
    · intro hnone
      rw [hnone] at hr
      exact resolveStore_none_ok hr
  · intro w uid sid s0 wa hdb hu hf hne
    rw [POST_eq_POSTauth hdb hu, POSTauth_error (resolveStore_denied hf hne)]
  · intro w uid sid wa hdb hu hf
    rw [POST_eq_POSTauth hdb hu, POSTauth_error (resolveStore_notfound hf)]

/-- Witness for C1: on the explicit path the dispatched store carries the
requested id and belongs to the requester. -/
theorem C1_witness : ownedStore.id = "s1" ∧ ownedStore.userId = "u1" := by
  have h := C1_amended.1 ownedWorld "u1" ⟨some "s1", true⟩ ownedStore
    (by decide) (by decide) (by decide)
  exact h.1 "s1" rfl

/-- Claim C2, counterexample: for an upstream collection of `k = 2` pages
of `m = 2` records with a cursor on page 1 only, the route's collection
fetch issues 1 request (not 2) and returns 2 records (not 4); the
paginated helper of the dashboard variant does return all 4 records in 2
requests. -/
theorem C2_counterexample :
    routeSingleFetch twoPages = ([1, 2], 1) ∧
    fetchAllFromShopify twoPages = ([1, 2, 3, 4], 2) ∧
    (routeSingleFetch twoPages).1.length = 2 ∧
    (routeSingleFetch twoPages).2 = 1 ∧
    (2 : Nat) ≠ 2 * 2 ∧ (1 : Nat) ≠ 2 := by decide

/-- Claim C2 (amended): the sync route's fetch issues exactly one request
per collection and depends only on the first page; the paginated
`fetchAllFromShopify` of the dashboard sync variant satisfies the claimed
property — on `k` pages of `m` records each with a continuation cursor on
all pages but the last, it returns exactly `k * m` records and issues
exactly `k` requests, terminating exactly when no next cursor is
present. -/
theorem C2_amended :
    (∀ (α : Type) (pages pages2 : List (Page α)), pages.head? = pages2.head? →
      routeSingleFetch pages = routeSingleFetch pages2) ∧
    (∀ (α : Type) (pages : List (Page α)), (routeSingleFetch pages).2 = 1) ∧
    (∀ (α : Type) (pages : List (Page α)) (m : Nat),
      pages ≠ [] → wellPaged pages = true → (∀ p ∈ pages, p.records.length = m) →
      (fetchAllFromShopify pages).1.length = pages.length * m ∧
      (fetchAllFromShopify pages).2 = pages.length) := by
  refine ⟨?_, ?_, ?_⟩
  · intro α pages pages2 hh
    unfold routeSingleFetch
    rw [hh]
  · intro α pages
    rfl
  · intro α pages m hne hw hm
    rw [fetchAll_complete pages hne hw]
    exact ⟨length_flatMap_const pages m hm, rfl⟩

/-- Witness for C2: the paginated helper on the concrete two-page
collection returns all `2 * 2` records in `2` requests. -/
theorem C2_witness :
    (fetchAllFromShopify twoPages).1.length = 2 * 2 ∧
    (fetchAllFromShopify twoPages).2 = 2 := by
  have h := C2_amended.2.2 Nat twoPages 2 (by decide) (by decide) (by decide)
  simpa using h

/-- Claim C3, counterexample: with the customers fetch answered by a
non-success response and the orders fetch answered with one order, the run
does not abort — the order phase still executes (one order row is
written), and no error is surfaced (the result is `.ok`). -/
theorem C3_counterexample :
    syncRun "s1" ⟨.ok (.failure "boom"), .ok (.success [cexOrder])⟩ ⟨[], [], 0⟩ =
      .ok ⟨⟨[], [⟨0, "100", "#1", (500, 2), "USD", some "paid", none, none, "s1", none⟩], 1⟩,
        ["[SYNC] Failed to fetch customers: boom"]⟩ ∧
    (match syncRun "s1" ⟨.ok (.failure "boom"), .ok (.success [cexOrder])⟩ ⟨[], [], 0⟩ with
      | .ok r => r.db.orders.length
      | .error _ => 0) = 1 := by decide

/-- Claim C3 (amended): a non-success response from the customers fetch
does not abort the run — the failure is only logged, the order phase still
executes against the untouched store state, and the run completes normally
with no error surfaced to the caller (committed upserts remain). -/
theorem C3_amended :
    ∀ (custStep : DB → RawCustomer → Except String DB)
      (orderStep : DB → RawOrder → Except String DB)
      (t : String) (orders : List RawOrder) (db0 : DB),
      syncHistoricalData custStep orderStep ⟨.ok (.failure t), .ok (.success orders)⟩ db0 =
        .ok ⟨(processItems orderStep db0 orders).1,
          ("[SYNC] Failed to fetch customers: " ++ t) ::
            (processItems orderStep db0 orders).2⟩ := by
  intro custStep orderStep t orders db0
  unfold syncHistoricalData syncAttempt
  simp

/-- The two claim-facing facts about one order upsert under the composite
unique key, used by C4. -/
theorem orderRowsFor_orderUpsert (db : DB) (storeId : String) (o : RawOrder)
    (hn : orderKeysNodup db) :
    (orderRowsFor (orderUpsert db storeId o) (toString o.id) storeId).length = 1 ∧
    ∀ r ∈ orderRowsFor (orderUpsert db storeId o) (toString o.id) storeId,
      r.financialStatus = o.financial_status ∧ r.fulfillmentStatus = o.fulfillment_status ∧
      r.totalPrice = parseFloat o.total_price := by
  cases h : findUniqueOrder db (toString o.id) storeId with
  | none =>
    rw [orderRowsFor_orderUpsert_of_none h]
    refine ⟨rfl, fun r hr => ?_⟩
    rw [List.mem_singleton] at hr
    subst hr
    exact ⟨rfl, rfl, rfl⟩
  | some r0 =>
    rw [orderRowsFor_orderUpsert_of_some hn h]
    refine ⟨rfl, fun r hr => ?_⟩
    rw [List.mem_singleton] at hr
    subst hr
    exact ⟨rfl, rfl, rfl⟩

/-- Claim C4: both upserts are idempotent — applying the same raw record
twice equals applying it once — and, on a store satisfying the composite
unique constraint, applying a record leaves exactly one row under its
`(external identifier, store)` key, whose written fields carry the
last-applied values; the constraint itself is preserved. -/
theorem C4_idempotent_upsert :
    ∀ (db : DB) (storeId : String) (c : RawCustomer) (o : RawOrder),
      customerUpsert (customerUpsert db storeId c) storeId c = customerUpsert db storeId c ∧
      orderUpsert (orderUpsert db storeId o) storeId o = orderUpsert db storeId o ∧
      (custKeysNodup db →
        custKeysNodup (customerUpsert db storeId c) ∧
        (custRowsFor (customerUpsert db storeId c) (toString c.id) storeId).length = 1 ∧
        ∀ r ∈ custRowsFor (customerUpsert db storeId c) (toString c.id) storeId,
          r.email = c.email ∧ r.firstName = c.first_name ∧ r.lastName = c.last_name) ∧
      (orderKeysNodup db →
        orderKeysNodup (orderUpsert db storeId o) ∧
        (orderRowsFor (orderUpsert db storeId o) (toString o.id) storeId).length = 1 ∧
        ∀ r ∈ orderRowsFor (orderUpsert db storeId o) (toString o.id) storeId,
          r.financialStatus = o.financial_status ∧
          r.fulfillmentStatus = o.fulfillment_status ∧
          r.totalPrice = parseFloat o.total_price) := by
  intro db storeId c o
  refine ⟨customerUpsert_idem db storeId c, orderUpsert_idem db storeId o, ?_, ?_⟩
  · intro hn
    have h1 := custRowsFor_customerUpsert db storeId c hn
    exact ⟨custKeysNodup_customerUpsert db storeId c hn, h1.1, h1.2⟩
  · intro hn
    have h1 := orderRowsFor_orderUpsert db storeId o hn
    exact ⟨orderKeysNodup_orderUpsert db storeId o hn, h1.1, h1.2⟩

/-- Witness for C4 on an empty store: double-apply equals single-apply and
the key holds exactly one row. -/
theorem C4_witness :
    customerUpsert (customerUpsert ⟨[], [], 0⟩ "s" wCust) "s" wCust =
      customerUpsert ⟨[], [], 0⟩ "s" wCust ∧
    (custRowsFor (customerUpsert ⟨[], [], 0⟩ "s" wCust) (toString wCust.id) "s").length = 1 :=
  ⟨(C4_idempotent_upsert ⟨[], [], 0⟩ "s" wCust wOrd).1,
    ((C4_idempotent_upsert ⟨[], [], 0⟩ "s" wCust wOrd).2.2.1 (by decide)).2.1⟩

/-- Claim C5, counterexample: two synchronous (`wait=true`) requests whose
sync runs fetch different numbers of customers (5 versus 0) receive the
very same `200` response `{ok := true, message := "Sync completed"}` —
the response is a fixed status message and contains neither the counts nor
the run outcome. -/
theorem C5_counterexample :
    POST worldFive ⟨none, true⟩ = POST worldZero ⟨none, true⟩ ∧
    (match syncRun "s1" worldFive.sync worldFive.db0 with
      | .ok r => r.db.customers.length
      | .error _ => 0) = 5 ∧
    (match syncRun "s1" worldZero.sync worldZero.db0 with
      | .ok r => r.db.customers.length
      | .error _ => 0) = 0 ∧
    (5 : Nat) ≠ 0 := by decide

/-- Claim C5 (amended): asynchronous mode returns `202` with the fixed
status message `Sync started`; synchronous mode returns `200` with the
fixed status message `Sync completed` — no SyncReport, counts, or outcome
appear in either response. -/
theorem C5_amended :
    ∀ (w : World) (uid : String) (req : PostRequest) (store : StoreRow),
      w.dbReachable = true → w.user = some uid →
      resolveStore w.stores uid req.storeIdParam = .ok store →
      (req.wait = true →
        POST w req = ⟨200, .okMsg true "Sync completed", some store, true⟩) ∧
      (req.wait = false →
        POST w req = ⟨202, .okMsg true "Sync started", some store, false⟩) := by
  intro w uid req store hdb hu hr
  rw [POST_eq_POSTauth hdb hu, POSTauth_ok hr]
  constructor
  · intro hw2
    simp [hw2]
  · intro hw2
    simp [hw2]

/-- Witness for C5: the owner's awaited request gets `200` with the fixed
completion message. -/
theorem C5_witness :
    POST ownedWorld ⟨some "s1", true⟩ =
      ⟨200, .okMsg true "Sync completed", some ownedStore, true⟩ := by
  have h := C5_amended ownedWorld "u1" ⟨some "s1", true⟩ ownedStore
    (by decide) (by decide) (by decide)
  exact h.1 rfl

/-- Claim C6, counterexample: an order row that already exists under its
key with a null customer reference is not re-linked when re-applied, even
though its embedded customer external identifier (`10`) now matches a
stored Customer of local identifier `2` in the same store — the stored
reference stays `none` instead of `some 2`. -/
theorem C6_counterexample :
    findUniqueCustomer preDB "10" "s" = some wCustRow ∧ wCustRow.id = 2 ∧
    orderRowsFor (orderUpsert preDB "s" wOrd) "100" "s" =
      [⟨1, "100", "#1", (500, 2), "USD", some "paid", none, none, "s", none⟩] ∧
    (⟨1, "100", "#1", (500, 2), "USD", some "paid", none, none, "s", none⟩ :
        OrderRow).customerId = none ∧
    (none : Option Nat) ≠ some 2 := by decide

/-- Claim C6 (amended): for an order with no existing row under its
`(external identifier, store)` key, the created row resolves its embedded
customer through a lookup keyed by the same store: a match yields that
Customer's local identifier (and the matched Customer belongs to the same
store), no match or no embedded customer yields a null reference, and the
run does not fail; a pre-existing order row keeps its stored reference
unchanged. -/
theorem C6_amended :
    ∀ (db : DB) (storeId : String) (o : RawOrder),
      findUniqueOrder db (toString o.id) storeId = none →
      (orderRowsFor (orderUpsert db storeId o) (toString o.id) storeId =
        [newOrder db.nextId (toString o.id) storeId o (lookupOrderCustomer db storeId o)]) ∧
      (∀ c, lookupOrderCustomer db storeId o = some c →
        c.storeId = storeId ∧
        (newOrder db.nextId (toString o.id) storeId o (some c)).customerId = some c.id) ∧
      (lookupOrderCustomer db storeId o = none →
        (newOrder db.nextId (toString o.id) storeId o none).customerId = none) ∧
      (syncHistoricalData (customerStepOk storeId) (orderStepOk storeId)
        ⟨.ok (.success []), .ok (.success [o])⟩ db).isOk = true := by
  intro db storeId o h
  refine ⟨orderRowsFor_orderUpsert_of_none h, ?_, fun _ => rfl, ?_⟩
  · intro c hc
    refine ⟨?_, rfl⟩
    unfold lookupOrderCustomer at hc
    cases hoc : o.customer with
    | none => rw [hoc] at hc; exact Option.noConfusion hc
    | some oc =>
      rw [hoc] at hc
      unfold findUniqueCustomer at hc
      have hp := List.find?_some hc
      rw [custMatch_iff] at hp
      exact congrArg Prod.snd hp
  · unfold syncHistoricalData
    cases syncAttempt (customerStepOk storeId) (orderStepOk storeId)
        ⟨.ok (.success []), .ok (.success [o])⟩ db with
    | ok r => rfl
    | error p =>
      obtain ⟨e, d2⟩ := p
      rfl

/-- Witness for C6: on the concrete store holding the matching customer,
the freshly created order row is the transform of the raw order with the
lookup result, and the matched customer belongs to the same store. -/
theorem C6_witness :
    orderRowsFor (orderUpsert wDB "s" wOrd) (toString wOrd.id) "s" =
      [newOrder wDB.nextId (toString wOrd.id) "s" wOrd (lookupOrderCustomer wDB "s" wOrd)] ∧
    wCustRow.storeId = "s" := by
  have h := C6_amended wDB "s" wOrd (by decide)
  exact ⟨h.1, (h.2.1 wCustRow (by decide)).1⟩

/-- Claim C7: in the operation trace of a sync run, every customer upsert
precedes every order-phase operation (the order upsert and the
customer-linking lookup done for an order). -/
theorem C7_ordering :
    ∀ (storeId : String) (inp : SyncInput) (i j : Nat)
      (hi : i < (syncTrace storeId inp).length)
      (hj : j < (syncTrace storeId inp).length),
      isCustUpsert ((syncTrace storeId inp).get ⟨i, hi⟩) = true →
      isOrderOp ((syncTrace storeId inp).get ⟨j, hj⟩) = true → i < j := by
  intro storeId inp i j
  rw [syncTrace_eq_phases storeId inp]
  intro hi hj hci hoj
  exact appended_phases_ordered (custPhase_no_orderOp storeId inp)
    (orderPhase_no_custUpsert storeId inp) hi hj hci hoj

/-- Witness for C7: in the concrete one-customer one-order trace the
customer upsert (position 1) precedes the order upsert (position 4). -/
theorem C7_witness : (1 : Nat) < 4 :=
  C7_ordering "s" traceInput 1 4 (by decide) (by decide) (by decide) (by decide)

/-- Claim C8, counterexample: four consecutive transient (pool-timeout)
failures under `retries = 3` make `withRetry` rethrow the last raw error
after the three backoff delays — the result is the unwrapped caught error,
not a `RetryExhaustedError` value. -/
theorem C8_counterexample :
    withRetry exhaustOp 3 200 =
      (.error (.raw "Timed out fetching a new connection"), [200, 400, 800]) ∧
    (match (withRetry exhaustOp 3 200).1 with
      | .error e => isRetryExhausted e
      | .ok _ => false) = false := by decide

/-- Claim C8 (amended): for an operation wrapped by the retry executor
`withRetry`, transient-classified failures on exactly the first
`maxRetries` attempts followed by a success return the success after
exactly `maxRetries` delays on the schedule `baseDelay * 2^(n-1)`;
`maxRetries + 1` consecutive transient failures propagate the last raw
transient error itself (no RetryExhaustedError wrapper exists) after the
same delays; and a single non-transient failure propagates immediately
with zero delays and zero additional attempts. -/
theorem C8_amended :
    ∀ {α : Type} (op : Nat → Except JsError α) (retries d : Nat)
      (msgs : Nat → String) (v : α),
      ((∀ i, i < retries → op i = .error (.raw (msgs i)) ∧ isPoolTimeout (msgs i) = true) →
        op retries = .ok v →
        withRetry op retries d = (.ok v, (List.range retries).map (fun n => d * 2 ^ n))) ∧
      ((∀ i, i ≤ retries → op i = .error (.raw (msgs i)) ∧ isPoolTimeout (msgs i) = true) →
        withRetry op retries d =
          (.error (.raw (msgs retries)), (List.range retries).map (fun n => d * 2 ^ n))) ∧
      (∀ e, op 0 = .error e → isPoolTimeout (errMessage e) = false →
        withRetry op retries d = (.error e, [])) := by
  intro α op retries d msgs v
  refine ⟨?_, ?_, ?_⟩
  · intro hfail hok
    unfold withRetry
    rw [withRetryGo_ok op d v msgs retries 0
      (by intro i hi; rw [Nat.zero_add]; exact hfail i hi)
      (by rw [Nat.zero_add]; exact hok)]
    exact congrArg (Prod.mk _) (List.map_congr_left fun n _ => by rw [Nat.zero_add])
  · intro hfail
    unfold withRetry
    rw [withRetryGo_exhaust op d msgs retries 0
      (by intro i hi; rw [Nat.zero_add]; exact hfail i hi)]
    rw [Nat.zero_add]
    exact congrArg (Prod.mk _) (List.map_congr_left fun n _ => by rw [Nat.zero_add])
  · intro e h0 hnp
    unfold withRetry
    rw [withRetryGo, h0]
    cases retries with
    | zero => rfl
    | succ f => simp [hnp]

/-- Witness for C8: the concrete operation failing transiently on its
first three attempts succeeds with the delays 200, 400, 800. -/
theorem C8_witness : withRetry retryOp 3 200 = (.ok 42, [200, 400, 800]) := by
  have h := (C8_amended retryOp 3 200 (fun _ => "P2024") 42).1 (by decide) (by decide)
  rw [h]
  decide

/-- Claim C9: a per-item store failure is caught, its message logged, and
every later item of the list is still processed exactly as if the failing
item had been skipped — by the same generic loop for the customer and the
order phase — and `syncHistoricalData` never throws: for all fetch
behaviors and all (possibly throwing) per-item bodies its outer catch
yields a normal result. -/
theorem C9_best_effort :
    (∀ (α : Type) (step : DB → α → Except String DB) (db : DB) (a : α)
      (e : String) (rest : List α),
      step db a = .error e →
      processItems step db (a :: rest) =
        ((processItems step db rest).1, e :: (processItems step db rest).2)) ∧
    (∀ (custStep : DB → RawCustomer → Except String DB)
      (orderStep : DB → RawOrder → Except String DB) (inp : SyncInput) (db0 : DB),
      (syncHistoricalData custStep orderStep inp db0).isOk = true) := by
  constructor
  · intro α step db a e rest hstep
    simp only [processItems, hstep]
  · intro custStep orderStep inp db0
    unfold syncHistoricalData
    cases syncAttempt custStep orderStep inp db0 with
    | ok r => rfl
    | error p =>
      obtain ⟨e, d2⟩ := p
      rfl

/-- Witness for C9: the always-throwing step logs the error on the first
item and continues with the remaining item. -/
theorem C9_witness :
    processItems failStep ⟨[], [], 0⟩ [(), ()] =
      ((processItems failStep ⟨[], [], 0⟩ [()]).1,
        "boom" :: (processItems failStep ⟨[], [], 0⟩ [()]).2) :=
  C9_best_effort.1 Unit failStep ⟨[], [], 0⟩ () "boom" [()] rfl

/-- Claim C10: re-applying a raw order to an existing row under its key
rewrites exactly the financial status, the fulfillment status and the
total price, and keeps the order number, currency, processed timestamp and
customer reference of the stored row — in particular the stored customer
reference is never re-linked. -/
theorem C10_update_frame :
    ∀ (db : DB) (storeId : String) (o : RawOrder) (r0 : OrderRow),
      orderKeysNodup db →
      findUniqueOrder db (toString o.id) storeId = some r0 →
      orderRowsFor (orderUpsert db storeId o) (toString o.id) storeId = [updOrder o r0] ∧
      (updOrder o r0).financialStatus = o.financial_status ∧
      (updOrder o r0).fulfillmentStatus = o.fulfillment_status ∧
      (updOrder o r0).totalPrice = parseFloat o.total_price ∧
      (updOrder o r0).orderNumber = r0.orderNumber ∧
      (updOrder o r0).currency = r0.currency ∧
      (updOrder o r0).processedAt = r0.processedAt ∧
      (updOrder o r0).customerId = r0.customerId := by
  intro db storeId o r0 hn h
  exact ⟨orderRowsFor_orderUpsert_of_some hn h, rfl, rfl, rfl, rfl, rfl, rfl, rfl⟩

/-- Witness for C10: re-applying the raw order over its pre-existing row
leaves one row whose customer reference is still the stored `none` even
though a matching customer is present. -/
theorem C10_witness :
    orderRowsFor (orderUpsert preDB "s" wOrd) (toString wOrd.id) "s" =
      [updOrder wOrd preOrderRow] ∧
    (updOrder wOrd preOrderRow).customerId = none := by
  have h := C10_update_frame preDB "s" wOrd preOrderRow (by decide) (by decide)
  exact ⟨h.1, h.2.2.2.2.2.2.2⟩

end XenoSync
